import Mathlib

/-!
Verification of the Scrideo caption-styling and subtitle-muxing pipeline
(`helpers.py` and the duplicated logic in `app.py`) against its
natural-language specification.

The Python code is shallowly embedded: floating-point seconds are modelled
as exact rationals (`ℚ`), Python strings as Lean `String`s manipulated
through their `List Char` data, dictionaries with optional keys as
structures of `Option String` fields, and the file system / external
encoder of the muxer as explicit state threaded through a pure function.
-/

set_option allowUnsafeReducibility true in
attribute [semireducible] Rat.add Rat.mul Rat.sub Rat.inv

namespace Scrideo

/-! ### Python primitives -/

/-- Python `round()` on a nonnegative value: round half to even.
Modelled on exact rationals (the Python code computes on floats). -/
def roundHE (x : ℚ) : ℤ :=
  let f := ⌊x⌋
  let r := x - f
  if r < 1/2 then f else if 1/2 < r then f + 1 else if 2 ∣ f then f else f + 1

/-- Python `a % b` on rationals (sign of result follows `b`; here `b > 0`). -/
def pymod (a b : ℚ) : ℚ := a - b * ⌊a / b⌋

theorem roundHE_sub_le (x : ℚ) : |((roundHE x : ℤ) : ℚ) - x| ≤ 1/2 := by
  have hf : (0:ℚ) ≤ x - ⌊x⌋ := by
    have := Int.floor_le x; linarith
  have hf1 : x - ⌊x⌋ < 1 := by
    have := Int.lt_floor_add_one x; linarith
  unfold roundHE
  by_cases h1 : x - (⌊x⌋:ℚ) < 1/2
  · simp only [h1, if_true]
    rw [abs_le]; constructor <;> linarith
  · by_cases h2 : (1:ℚ)/2 < x - ⌊x⌋
    · simp only [h1, if_false, h2, if_true]
      rw [abs_le]; push_cast; constructor <;> linarith
    · have heq : x - (⌊x⌋:ℚ) = 1/2 := by linarith
      simp only [h1, if_false, h2]
      by_cases h3 : 2 ∣ ⌊x⌋
      · simp only [h3, if_true]
        rw [abs_le]; constructor <;> linarith
      · simp only [h3, if_false]
        rw [abs_le]; push_cast; constructor <;> linarith

theorem roundHE_nonneg {x : ℚ} (hx : 0 ≤ x) : 0 ≤ roundHE x := by
  unfold roundHE
  have h0 : (0:ℤ) ≤ ⌊x⌋ := Int.floor_nonneg.mpr hx
  dsimp only
  split_ifs <;> omega

theorem pymod_nonneg (a : ℚ) {b : ℚ} (hb : 0 < b) : 0 ≤ pymod a b := by
  unfold pymod
  have h := Int.floor_le (a / b)
  have : b * (⌊a / b⌋ : ℚ) ≤ b * (a / b) := by
    exact mul_le_mul_of_nonneg_left h (le_of_lt hb)
  have hba : b * (a / b) = a := by field_simp
  linarith

theorem pymod_lt (a : ℚ) {b : ℚ} (hb : 0 < b) : pymod a b < b := by
  unfold pymod
  have h := Int.lt_floor_add_one (a / b)
  have : b * (a / b) < b * ((⌊a / b⌋ : ℚ) + 1) := by
    exact mul_lt_mul_of_pos_left h hb
  have hba : b * (a / b) = a := by field_simp
  nlinarith

/-! ### Decimal rendering (Python `f"{n}"`, `f"{n:02d}"`, `f"{n:03d}"`) -/

/-- Decimal digit characters of a natural number, as rendered by a Python
f-string (plain decimal, no padding).  Written out by digit position for
the value ranges arising here; falls back to `Nat.repr` beyond 9999. -/
def natDigits (n : ℕ) : List Char :=
  if n < 10 then [Nat.digitChar n]
  else if n < 100 then [Nat.digitChar (n / 10), Nat.digitChar (n % 10)]
  else if n < 1000 then
    [Nat.digitChar (n / 100), Nat.digitChar (n / 10 % 10), Nat.digitChar (n % 10)]
  else if n < 10000 then
    [Nat.digitChar (n / 1000), Nat.digitChar (n / 100 % 10),
     Nat.digitChar (n / 10 % 10), Nat.digitChar (n % 10)]
  else (Nat.repr n).data

/-- Python `f"{n:02d}"`: zero-pad to width 2. -/
def digits2 (n : ℕ) : List Char :=
  if n < 10 then '0' :: natDigits n else natDigits n

/-- Python `f"{n:03d}"`: zero-pad to width 3. -/
def digits3 (n : ℕ) : List Char :=
  if n < 10 then '0' :: '0' :: natDigits n
  else if n < 100 then '0' :: natDigits n
  else natDigits n

/-! ### Parsing (Python `int(str)`, `float(str)` on the digit strings
arising in this pipeline) -/

/-- Value of a decimal digit character. -/
def digitVal? (c : Char) : Option ℕ :=
  if '0' ≤ c ∧ c ≤ '9' then some (c.toNat - '0'.toNat) else none

def digitsValGo (acc : ℕ) : List Char → Option ℕ
  | [] => some acc
  | c :: cs =>
    match digitVal? c with
    | some d => digitsValGo (10 * acc + d) cs
    | none => none

/-- Python `int(s)` on an all-digit string (`none` models `ValueError`). -/
def digitsVal? (l : List Char) : Option ℕ :=
  if l = [] then none else digitsValGo 0 l

/-- Python single-character `str.replace(old, new)`. -/
def replaceChar (old new : Char) (l : List Char) : List Char :=
  l.map fun c => if c = old then new else c

/-- Python `str.split(sep)` for a one-character separator: keeps empty
pieces, so the result is always nonempty. -/
def splitChar (c : Char) : List Char → List (List Char)
  | [] => [[]]
  | x :: xs =>
    if x = c then [] :: splitChar c xs
    else
      match splitChar c xs with
      | [] => [[x]]
      | p :: ps => (x :: p) :: ps

/-- Python `float(s)` on strings of the form `digits` or `digits.digits`
(the only shapes this pipeline feeds it); `none` models `ValueError`. -/
def pyFloat? (l : List Char) : Option ℚ :=
  match splitChar '.' l with
  | [a] => (digitsVal? a).map fun n => (n : ℚ)
  | [a, b] =>
    match digitsVal? a, digitsVal? b with
    | some i, some f => some ((i : ℚ) + (f : ℚ) / 10 ^ b.length)
    | _, _ => none
  | _ => none

/-! ### TimeCodec (`helpers.py`) -/

/-- The four numeric fields computed by `helpers.format_time`:
hours, minutes, whole seconds, and rounded milliseconds.  The input is
clamped to `0` first, so Python `int()` truncation coincides with the
floor. -/
def srtFields (s : ℚ) : ℕ × ℕ × ℕ × ℕ :=
  let s := if s < 0 then 0 else s
  ((⌊s / 3600⌋).toNat, (⌊pymod s 3600 / 60⌋).toNat, (⌊pymod s 60⌋).toNat,
   (roundHE ((s - ⌊s⌋) * 1000)).toNat)

/-- `helpers.format_time`: seconds to an SRT timestamp
`f"{hours:02d}:{minutes:02d}:{secs:02d},{millis:03d}"`. -/
def format_time (s : ℚ) : String :=
  let f := srtFields s
  ⟨digits2 f.1 ++ ':' :: digits2 f.2.1 ++ ':' :: digits2 f.2.2.1 ++
    ',' :: digits3 f.2.2.2⟩

/-- Python `f"{x:05.2f}"` for nonnegative `x`: round to two decimals
(half to even on the exact value), zero-pad the whole part to width 2. -/
def fmt052 (x : ℚ) : List Char :=
  let c := (roundHE (100 * x)).toNat
  digits2 (c / 100) ++ '.' :: digits2 (c % 100)

/-- `helpers.convert_time_srt_to_ass`: parse an SRT timestamp
(`HH:MM:SS,mmm`), reformat as `f"{hours}:{minutes:02d}:{seconds:05.2f}"`.
`none` models the `ValueError`/`IndexError` Python would raise on a
malformed input. -/
def convert_time_srt_to_ass (time_str : String) : Option String :=
  match splitChar ':' (replaceChar ',' '.' time_str.data) with
  | p0 :: p1 :: p2 :: _ =>
    match digitsVal? p0, digitsVal? p1, pyFloat? p2 with
    | some hours, some minutes, some seconds =>
      some ⟨natDigits hours ++ ':' :: digits2 minutes ++ ':' :: fmt052 seconds⟩
    | _, _, _ => none
  | _ => none

/-- Modelled from the spec: `toMarkupTime(seconds) -> "H:MM:SS.ss"` (hours
unpadded, minutes zero-padded to 2 digits, seconds as a fixed 2-decimal
zero-padded field).  The repository has no standalone seconds-to-markup
function; this follows the spec's TimeCodec description, with the field
arithmetic as in `format_time`. -/
def toMarkupTime (s : ℚ) : String :=
  ⟨natDigits (⌊s / 3600⌋).toNat ++ ':' :: digits2 (⌊pymod s 3600 / 60⌋).toNat ++
    ':' :: fmt052 (pymod s 60)⟩

/-- Numeric value (in seconds) denoted by a markup timestamp `H:MM:SS.cc` —
the measuring device for "numerically equal" claims. -/
def assValue (t : String) : Option ℚ :=
  match splitChar ':' t.data with
  | [p0, p1, p2] =>
    match digitsVal? p0, digitsVal? p1, pyFloat? p2 with
    | some h, some m, some sec => some (3600 * (h : ℚ) + 60 * m + sec)
    | _, _, _ => none
  | _ => none

/-! ### CueSegmenter (`helpers.generate_srt`) -/

/-- Python's default whitespace set for `str.strip()` / `str.split()`
(ASCII subset; the transcript text here is ASCII). -/
def isPySpace (c : Char) : Bool :=
  c = ' ' ∨ c = '\t' ∨ c = '\n' ∨ c = '\r' ∨ c = '\x0b' ∨ c = '\x0c'

/-- Python `str.strip()`: drop leading and trailing whitespace. -/
def pyStrip (l : List Char) : List Char :=
  ((l.dropWhile isPySpace).reverse.dropWhile isPySpace).reverse

theorem dropWhile_len_le (p : α → Bool) : ∀ l : List α, (l.dropWhile p).length ≤ l.length
  | [] => le_refl _
  | a :: t => by
    rw [List.dropWhile_cons]
    by_cases h : p a
    · simp only [h, if_true]
      have := dropWhile_len_le p t
      simp only [List.length_cons]
      omega
    · simp [h]

/-- Structural worker for `pySplitWS`; the fuel argument is only there to
make the recursion structural and always exceeds the consumed length. -/
def pySplitWSF : ℕ → List Char → List (List Char)
  | _, [] => []
  | 0, _ :: _ => []
  | fuel + 1, c :: t =>
    if isPySpace c then pySplitWSF fuel t
    else (c :: t.takeWhile (fun x => !isPySpace x)) ::
      pySplitWSF fuel (t.dropWhile (fun x => !isPySpace x))

/-- Python `str.split()` with no argument: split on whitespace runs,
discarding empty pieces. -/
def pySplitWS (l : List Char) : List (List Char) := pySplitWSF l.length l

/-- Structural worker for `chunks7` (fuel as in `pySplitWSF`). -/
def chunks7F : ℕ → List α → List (List α)
  | _, [] => []
  | 0, l => [l]
  | fuel + 1, x :: xs => (x :: xs).take 7 :: chunks7F fuel (xs.drop 6)

/-- The chunking `[words[i:i + max_words] for i in range(0, len(words),
max_words)]` with `max_words = 7`, on a nonempty list. -/
def chunks7 (l : List α) : List (List α) := chunks7F l.length l

theorem chunks7F_fuel_inv :
    ∀ (n : ℕ) (l : List α), l.length ≤ n → chunks7F n l = chunks7 l
  | 0, [], _ => rfl
  | _ + 1, [], _ => rfl
  | 0, x :: xs, h => by simp at h
  | n + 1, x :: xs, h => by
    show _ = chunks7F (x :: xs).length (x :: xs)
    simp only [List.length_cons, chunks7F]
    rw [chunks7F_fuel_inv n (xs.drop 6) (by
        have := List.length_drop 6 xs
        simp only [List.length_cons] at h
        omega),
      chunks7F_fuel_inv xs.length (xs.drop 6) (by
        have := List.length_drop 6 xs
        omega)]

/-- A transcript segment `{ "text": ..., "start": ..., "end": ... }`
(the `end` key is named `stop` because `end` is a Lean keyword). -/
structure Segment where
  text : String
  start : ℚ
  stop : ℚ
deriving DecidableEq

/-- One SRT cue record: index, start, end, text. -/
structure Cue where
  idx : ℕ
  start : ℚ
  stop : ℚ
  text : String
deriving DecidableEq

instance : Inhabited Cue := ⟨⟨0, 0, 0, ""⟩⟩

/-- The loop body of `helpers.generate_srt`: one pass over the segments
carrying the running cue index `idx` (the file-writing side effect is
modelled by returning the list of records written). -/
def generate_srt_go (idx : ℕ) : List Segment → List Cue
  | [] => []
  | seg :: rest =>
    let text := pyStrip seg.text.data
    if text = [] then generate_srt_go idx rest
    else
      let words := pySplitWS text
      if words.length ≤ 7 then
        ⟨idx, seg.start, seg.stop, ⟨text⟩⟩ :: generate_srt_go (idx + 1) rest
      else
        let chunks := chunks7 words
        let chunk_dur := (seg.stop - seg.start) / (chunks.length : ℚ)
        (chunks.enum.map fun ic =>
          ⟨idx + ic.1, seg.start + (ic.1 : ℚ) * chunk_dur,
            min (seg.start + ((ic.1 : ℚ) + 1) * chunk_dur) seg.stop,
            ⟨List.intercalate [' '] ic.2⟩⟩) ++
          generate_srt_go (idx + chunks.length) rest

/-- `helpers.generate_srt`: emit SRT cue records for a transcript,
numbering cues from 1. -/
def generate_srt (segments : List Segment) : List Cue :=
  generate_srt_go 1 segments

/-- The loop of the duplicate `generate_srt` in `app.py` (lines 106-121):
one record per non-empty trimmed segment, no word-count splitting. -/
def app_generate_srt_go (idx : ℕ) : List Segment → List Cue
  | [] => []
  | seg :: rest =>
    let text := pyStrip seg.text.data
    if text = [] then app_generate_srt_go idx rest
    else ⟨idx, seg.start, seg.stop, ⟨text⟩⟩ :: app_generate_srt_go (idx + 1) rest

/-- `app.generate_srt` (the duplicate in `app.py`). -/
def app_generate_srt (segments : List Segment) : List Cue :=
  app_generate_srt_go 1 segments

/-! ### Chunking lemmas -/

theorem chunks7_nil : chunks7 ([] : List α) = [] := rfl

theorem chunks7_cons (x : α) (xs : List α) :
    chunks7 (x :: xs) = (x :: xs).take 7 :: chunks7 (xs.drop 6) := by
  show chunks7F (x :: xs).length (x :: xs) = _
  simp only [List.length_cons, chunks7F]
  rw [chunks7F_fuel_inv xs.length (xs.drop 6) (by
    have := List.length_drop 6 xs
    omega)]

theorem chunks7_getD : ∀ (i : ℕ) (l : List α), (chunks7 l).getD i [] = (l.drop (7 * i)).take 7
  | 0, [] => by rw [chunks7_nil]; rfl
  | 0, x :: xs => by rw [chunks7_cons]; rfl
  | i + 1, [] => by rw [chunks7_nil]; simp [List.getD]
  | i + 1, x :: xs => by
    rw [chunks7_cons]
    show (chunks7 (xs.drop 6)).getD i [] = _
    rw [chunks7_getD i (xs.drop 6)]
    rw [show 7 * (i + 1) = (7 * i + 6) + 1 from by ring]
    rw [List.drop_succ_cons, List.drop_drop, Nat.add_comm 6 (7 * i)]

theorem chunks7_flatten_fuel : ∀ (n : ℕ) (l : List α), l.length ≤ n → (chunks7 l).flatten = l
  | _, [], _ => by rw [chunks7_nil]; rfl
  | 0, x :: xs, h => by simp at h
  | n + 1, x :: xs, h => by
    rw [chunks7_cons, List.flatten_cons]
    rw [chunks7_flatten_fuel n (xs.drop 6) (by
      have := List.length_drop 6 xs
      simp only [List.length_cons] at h
      omega)]
    rw [List.take_succ_cons, List.cons_append, List.take_append_drop]

theorem chunks7_flatten (l : List α) : (chunks7 l).flatten = l :=
  chunks7_flatten_fuel l.length l le_rfl

theorem chunks7_length_fuel :
    ∀ (n : ℕ) (l : List α), l.length ≤ n → l ≠ [] →
      (chunks7 l).length = (l.length + 6) / 7
  | _, [], _, h => absurd rfl h
  | 0, x :: xs, h, _ => by simp at h
  | n + 1, x :: xs, hlen, _ => by
    rw [chunks7_cons]
    simp only [List.length_cons]
    by_cases hxe : xs.drop 6 = []
    · have h6 : xs.length ≤ 6 := by
        have := List.length_drop 6 xs
        rw [hxe] at this
        simp only [List.length_nil] at this
        omega
      rw [hxe, chunks7_nil]
      simp only [List.length_nil]
      omega
    · have hlt : (xs.drop 6).length ≤ n := by
        have := List.length_drop 6 xs
        simp only [List.length_cons] at hlen
        omega
      have h7 : 7 ≤ xs.length := by
        by_contra hc
        push_neg at hc
        exact hxe (List.eq_nil_of_length_eq_zero (by rw [List.length_drop]; omega))
      rw [chunks7_length_fuel n (xs.drop 6) hlt hxe, List.length_drop]
      omega

theorem chunks7_length (l : List α) (h : l ≠ []) :
    (chunks7 l).length = (l.length + 6) / 7 :=
  chunks7_length_fuel l.length l le_rfl h

theorem chunks7_mem_le_fuel :
    ∀ (n : ℕ) (l : List α), l.length ≤ n → ∀ c ∈ chunks7 l, c.length ≤ 7
  | _, [], _, c, hc => by rw [chunks7_nil] at hc; simp at hc
  | 0, x :: xs, h, _, _ => by simp at h
  | n + 1, x :: xs, hlen, c, hc => by
    rw [chunks7_cons] at hc
    rcases List.mem_cons.mp hc with h | h
    · subst h
      rw [List.length_take]
      omega
    · exact chunks7_mem_le_fuel n (xs.drop 6) (by
        have := List.length_drop 6 xs
        simp only [List.length_cons] at hlen
        omega) c h

theorem chunks7_mem_le (l : List α) : ∀ c ∈ chunks7 l, c.length ≤ 7 :=
  chunks7_mem_le_fuel l.length l le_rfl

theorem enumMap_getD (f : ℕ × α → β) (l : List α) (i : ℕ) (hi : i < l.length)
    (d : β) (d' : α) : (l.enum.map f).getD i d = f (i, l.getD i d') := by
  have hlen : i < (l.enum.map f).length := by
    rw [List.length_map, List.enum_length]; exact hi
  rw [List.getD_eq_getElem _ _ hlen, List.getElem_map, List.getElem_enum,
    List.getD_eq_getElem _ _ hi]

/-! ### Claim theorems: time formatting and segmentation -/

/-- The word list of a segment: `seg['text'].strip().split()`. -/
def segWords (seg : Segment) : List (List Char) := pySplitWS (pyStrip seg.text.data)

/-- The number `N` of word chunks `generate_srt` makes for a long segment. -/
def segChunkCount (seg : Segment) : ℕ := (chunks7 (segWords seg)).length

/-- The per-chunk duration `(seg['end'] - seg['start']) / len(chunks)`. -/
def segChunkDur (seg : Segment) : ℚ := (seg.stop - seg.start) / (segChunkCount seg : ℚ)

theorem getD_append_lt (A B : List α) (d : α) (i : ℕ) (h : i < A.length) :
    (A ++ B).getD i d = A.getD i d := by
  rw [List.getD_eq_getElem?_getD, List.getD_eq_getElem?_getD,
    List.getElem?_append, if_pos h]

/-- C1: `format_time` clamps and rounds as claimed, but at `s = 0.9996`
the rounded milliseconds reach `1000` and the `%03d` field is four
characters, so the output does not match the `HH:MM:SS,mmm` pattern
(which has 12 characters). -/
theorem c1_format_time_millis_overflow :
    format_time (9996 / 10000 : ℚ) = "00:00:00,1000" ∧
    (format_time (9996 / 10000 : ℚ)).length = 13 := by
  refine ⟨by decide, by decide⟩

/-- C3 (amended): per-segment behaviour of `helpers.generate_srt` (via its
loop `generate_srt_go`, entered at index 1): a segment with empty trimmed
text emits nothing; a trimmed segment of at most 7 words emits exactly one
cue spanning the segment's full start and end with the trimmed text; a
longer segment is split into consecutive chunks of at most 7 words (their
concatenation is the word list) and chunk `i` of the `N` chunks spans
`[start + i·(duration/N), min(start + (i+1)·(duration/N), end)]`, after
which the remaining segments' cues follow.  The duplicate `generate_srt`
in `app.py` instead emits exactly one cue per non-empty trimmed segment,
with no word-count splitting. -/
theorem c3_generate_srt_segmentation :
    (∀ segs : List Segment, generate_srt segs = generate_srt_go 1 segs) ∧
    (∀ (idx : ℕ) (rest : List Segment) (seg : Segment), pyStrip seg.text.data = [] →
      generate_srt_go idx (seg :: rest) = generate_srt_go idx rest) ∧
    (∀ (idx : ℕ) (rest : List Segment) (seg : Segment), pyStrip seg.text.data ≠ [] →
      ((segWords seg).length ≤ 7 →
        generate_srt_go idx (seg :: rest) =
          ⟨idx, seg.start, seg.stop, ⟨pyStrip seg.text.data⟩⟩ :: generate_srt_go (idx + 1) rest) ∧
      (7 < (segWords seg).length →
        (∀ c ∈ chunks7 (segWords seg), c.length ≤ 7) ∧
        (chunks7 (segWords seg)).flatten = segWords seg ∧
        (∀ i, i < segChunkCount seg →
          (generate_srt_go idx (seg :: rest)).getD i default =
            ⟨idx + i, seg.start + (i : ℚ) * segChunkDur seg,
              min (seg.start + ((i : ℚ) + 1) * segChunkDur seg) seg.stop,
              ⟨List.intercalate [' '] (((segWords seg).drop (7 * i)).take 7)⟩⟩) ∧
        (generate_srt_go idx (seg :: rest)).drop (segChunkCount seg) =
          generate_srt_go (idx + segChunkCount seg) rest)) ∧
    (∀ segs : List Segment, app_generate_srt segs = app_generate_srt_go 1 segs) ∧
    (∀ (idx : ℕ) (rest : List Segment) (seg : Segment), pyStrip seg.text.data = [] →
      app_generate_srt_go idx (seg :: rest) = app_generate_srt_go idx rest) ∧
    (∀ (idx : ℕ) (rest : List Segment) (seg : Segment), pyStrip seg.text.data ≠ [] →
      app_generate_srt_go idx (seg :: rest) =
        ⟨idx, seg.start, seg.stop, ⟨pyStrip seg.text.data⟩⟩ ::
          app_generate_srt_go (idx + 1) rest) := by
  refine ⟨fun segs => rfl, ?_, ?_, fun segs => rfl, ?_, ?_⟩
  case refine_3 =>
    intro idx rest seg h
    simp only [app_generate_srt_go, h, if_true]
  case refine_4 =>
    intro idx rest seg hne
    simp only [app_generate_srt_go, if_neg hne]
  · intro idx rest seg h
    simp only [generate_srt_go, h, if_true]
  · intro idx rest seg hne
    constructor
    · intro hle
      simp only [generate_srt_go, if_neg hne, segWords] at hle ⊢
      rw [if_pos hle]
    · intro hgt
      have hbranch :
          generate_srt_go idx (seg :: rest) =
            ((chunks7 (segWords seg)).enum.map fun ic =>
              (⟨idx + ic.1, seg.start + (ic.1 : ℚ) *
                  ((seg.stop - seg.start) / ((chunks7 (segWords seg)).length : ℚ)),
                min (seg.start + ((ic.1 : ℚ) + 1) *
                  ((seg.stop - seg.start) / ((chunks7 (segWords seg)).length : ℚ))) seg.stop,
                ⟨List.intercalate [' '] ic.2⟩⟩ : Cue)) ++
              generate_srt_go (idx + (chunks7 (segWords seg)).length) rest := by
        simp only [generate_srt_go, if_neg hne, segWords] at hgt ⊢
        rw [if_neg (by omega)]
      have hmaplen :
          (((chunks7 (segWords seg)).enum.map fun ic =>
            (⟨idx + ic.1, seg.start + (ic.1 : ℚ) *
                ((seg.stop - seg.start) / ((chunks7 (segWords seg)).length : ℚ)),
              min (seg.start + ((ic.1 : ℚ) + 1) *
                ((seg.stop - seg.start) / ((chunks7 (segWords seg)).length : ℚ))) seg.stop,
              ⟨List.intercalate [' '] ic.2⟩⟩ : Cue))).length =
            segChunkCount seg := by
        rw [List.length_map, List.enum_length]; rfl
      refine ⟨chunks7_mem_le _, chunks7_flatten _, ?_, ?_⟩
      · intro i hi
        rw [hbranch, getD_append_lt _ _ _ _ (by rw [hmaplen]; exact hi)]
        rw [enumMap_getD _ _ _ (by exact hi) _ []]
        rw [chunks7_getD]
        rfl
      · rw [hbranch, ← hmaplen, List.drop_left, hmaplen]
        rfl

/-- Witness for C3: the three branches at concrete segments. -/
theorem c3_generate_srt_segmentation_w :
    pyStrip ("  " : String).data = [] ∧
    generate_srt_go 5 [(⟨"  ", 0, 1⟩ : Segment), ⟨"hi there", 2, 3⟩] = [⟨5, 2, 3, "hi there"⟩] ∧
    7 < (segWords ⟨"a b c d e f g h i", 1, 3⟩).length ∧
    (generate_srt_go 1 [(⟨"a b c d e f g h i", 1, 3⟩ : Segment)]).getD 1 default =
      ⟨2, 2, 3, "h i"⟩ := by
  refine ⟨by decide, ?_, by decide, ?_⟩
  · rw [(c3_generate_srt_segmentation.2.1 5 [⟨"hi there", 2, 3⟩] ⟨"  ", 0, 1⟩ (by decide))]
    rw [((c3_generate_srt_segmentation.2.2.1 5 [] ⟨"hi there", 2, 3⟩ (by decide)).1 (by decide))]
    decide
  · rw [((c3_generate_srt_segmentation.2.2.1 1 [] ⟨"a b c d e f g h i", 1, 3⟩
      (by decide)).2 (by decide)).2.2.1 1 (by decide)]
    decide

/-- C3 counterexample: the duplicate `generate_srt` in `app.py` emits a
single cue for a 9-word segment — it never splits into 7-word chunks. -/
theorem c3_app_no_split_counterexample :
    app_generate_srt [(⟨"a b c d e f g h i", 1, 3⟩ : Segment)] =
      [⟨1, 1, 3, "a b c d e f g h i"⟩] ∧
    (app_generate_srt [(⟨"a b c d e f g h i", 1, 3⟩ : Segment)]).length ≠ 2 := by
  refine ⟨by decide, by decide⟩

/-- C4 counterexample: the code distributes a long segment's duration
evenly across the chunks, not proportionally to word counts.  For the
15-word, 14-second segment all three cue durations are `14/3` (but a
`7/7/1`-proportional split would give the last chunk `14·(1/15)`), and for
the two-segment input the second segment's first chunk ends at `2.0`
seconds, not at `2.556` (nor at the proportional boundary `1 + 2·(7/9)`). -/
theorem c4_proportional_split_counterexample :
    ((generate_srt [(⟨"a b c d e f g h i j k l m n o", 0, 14⟩ : Segment)]).map
        (fun c => c.stop - c.start) = [14/3, 14/3, 14/3] ∧
      ¬ ((14 : ℚ)/3 = 14 * (1/15))) ∧
    ((generate_srt [(⟨"hello world", 0, 1⟩ : Segment), ⟨"a b c d e f g h i", 1, 3⟩]).getD 1 default =
        ⟨2, 1, 2, "a b c d e f g"⟩ ∧
      ¬ ((2 : ℚ) = 2556/1000) ∧ ¬ ((2 : ℚ) = 1 + 2 * (7/9))) := by
  refine ⟨⟨by decide, by decide⟩, ⟨by decide, by decide, by decide⟩⟩

/-- C4 amended: the 15-word, 14-second segment yields exactly 3 cues of
7, 7 and 1 words with equal durations `14/3` (even time distribution),
summing exactly to the original duration and contiguous with no gaps or
overlaps; the two-segment input yields 3 cues, the first segment verbatim
and the second split into a 7-word chunk spanning 1.0–2.0 s and a 2-word
chunk spanning 2.0–3.0 s.  The duplicate segmenter in `app.py` leaves both
transcripts unsplit (1 and 2 cues respectively). -/
theorem c4_even_split_amended :
    generate_srt [(⟨"a b c d e f g h i j k l m n o", 0, 14⟩ : Segment)] =
      [⟨1, 0, 14/3, "a b c d e f g"⟩, ⟨2, 14/3, 28/3, "h i j k l m n"⟩,
        ⟨3, 28/3, 14, "o"⟩] ∧
    ((14 : ℚ)/3 - 0) + (28/3 - 14/3) + (14 - 28/3) = 14 - 0 ∧
    generate_srt [(⟨"hello world", 0, 1⟩ : Segment), ⟨"a b c d e f g h i", 1, 3⟩] =
      [⟨1, 0, 1, "hello world"⟩, ⟨2, 1, 2, "a b c d e f g"⟩, ⟨3, 2, 3, "h i"⟩] ∧
    app_generate_srt [(⟨"a b c d e f g h i j k l m n o", 0, 14⟩ : Segment)] =
      [⟨1, 0, 14, "a b c d e f g h i j k l m n o"⟩] ∧
    app_generate_srt [(⟨"hello world", 0, 1⟩ : Segment), ⟨"a b c d e f g h i", 1, 3⟩] =
      [⟨1, 0, 1, "hello world"⟩, ⟨2, 1, 3, "a b c d e f g h i"⟩] := by
  refine ⟨by decide, by decide, by decide, by decide, by decide⟩

/-! ### StyleResolver: lookup tables (`helpers.py` top level and the
duplicates inline in `app.py`'s `overlay_subtitles`) -/

/-- Python `a.startswith`-style prefix test on char lists (helper for
modelling the `in` operator). -/
def strStarts : List Char → List Char → Bool
  | [], _ => true
  | _ :: _, [] => false
  | a :: as, b :: bs => a = b && strStarts as bs

/-- Python `needle in hay` on strings: contiguous substring containment. -/
def strContains (needle : List Char) : List Char → Bool
  | [] => strStarts needle []
  | c :: t => strStarts needle (c :: t) || strContains needle t

/-- Python `str.lower()` (ASCII). -/
def pyLower (s : String) : String := ⟨s.data.map Char.toLower⟩

def COLOR_MAP : List (String × String) :=
  [("white", "00FFFFFF"), ("yellow", "0000FFFF"), ("cyan", "00FFFF00"),
   ("lime", "0000FF00"), ("orange", "0000A5FF"), ("red", "000000FF"),
   ("pink", "00CBC0FF"), ("purple", "00F020A0"), ("light-blue", "00E6D8AD"),
   ("light-green", "0090EE90")]

def BG_COLOR_MAP : List (String × String) :=
  [("none", "FF000000"), ("black", "00000000"), ("dark-gray", "00333333"),
   ("semi-transparent", "80000000"), ("dark-blue", "00800000"),
   ("dark-red", "00000080"), ("dark-green", "00008000"),
   ("dark-purple", "00800080"), ("navy", "00800000"), ("charcoal", "00363636")]

def FONT_MAP : List (String × String) :=
  [("arial", "Arial"), ("helvetica", "Helvetica"),
   ("times-new-roman", "Times New Roman"), ("courier-new", "Courier New"),
   ("verdana", "Verdana"), ("georgia", "Georgia"), ("impact", "Impact"),
   ("comic-sans", "Comic Sans MS"), ("trebuchet", "Trebuchet MS"),
   ("arial-black", "Arial Black"), ("palatino", "Palatino Linotype")]

/-- The `position_map` of `helpers.get_ass_alignment_and_margins`. -/
def position_map : List (String × (ℤ × String × String × String)) :=
  [("top-left", (7, "40", "10", "20")), ("top", (8, "10", "10", "20")),
   ("top-right", (9, "10", "40", "20")), ("middle-left", (4, "40", "10", "0")),
   ("middle", (5, "10", "10", "0")), ("middle-right", (6, "10", "40", "0")),
   ("bottom-left", (1, "40", "10", "20")), ("bottom", (2, "10", "10", "20")),
   ("bottom-right", (3, "10", "40", "20"))]

/-- `helpers.get_ass_alignment_and_margins`. -/
def get_ass_alignment_and_margins (position text_alignment : String) :
    ℤ × String × String × String :=
  let base := (position_map.lookup position).getD (2, "10", "10", "20")
  if position = "top" ∨ position = "middle" ∨ position = "bottom" then
    if text_alignment = "left" then (base.1 - 1, "40", "10", base.2.2.2)
    else if text_alignment = "right" then (base.1 + 1, "10", "40", base.2.2.2)
    else (base.1, "10", "10", base.2.2.2)
  else base

/-- The `color_map` inline in `app.overlay_subtitles` (pink and purple
differ from `helpers.COLOR_MAP`). -/
def appColorMap : List (String × String) :=
  [("white", "00FFFFFF"), ("yellow", "0000FFFF"), ("cyan", "00FFFF00"),
   ("lime", "0000FF00"), ("orange", "0000A5FF"), ("red", "000000FF"),
   ("pink", "00FFC0CB"), ("purple", "00A020F0"), ("light-blue", "00E6D8AD"),
   ("light-green", "0090EE90")]

/-- The `bg_color_map` inline in `app.overlay_subtitles`. -/
def appBgColorMap : List (String × String) :=
  [("none", "FF000000"), ("black", "00000000"), ("dark-gray", "00333333"),
   ("semi-transparent", "80000000"), ("dark-blue", "00800000"),
   ("dark-red", "00000080"), ("dark-green", "00008000"),
   ("dark-purple", "00800080"), ("navy", "00800000"), ("charcoal", "00363636")]

/-- The `font_map` inline in `app.overlay_subtitles`. -/
def appFontMap : List (String × String) :=
  [("arial", "Arial"), ("helvetica", "Helvetica"),
   ("times-new-roman", "Times New Roman"), ("courier-new", "Courier New"),
   ("verdana", "Verdana"), ("georgia", "Georgia"), ("impact", "Impact"),
   ("comic-sans", "Comic Sans MS"), ("trebuchet", "Trebuchet MS"),
   ("arial-black", "Arial Black"), ("palatino", "Palatino Linotype")]

/-- The `position_map` inline in `app.overlay_subtitles`: only 7 entries,
with no `middle-left` or `middle-right`. -/
def appPositionMap : List (String × (ℤ × String × String × String)) :=
  [("bottom", (2, "10", "10", "20")), ("top", (8, "10", "10", "20")),
   ("bottom-left", (1, "40", "10", "20")), ("bottom-right", (3, "10", "40", "20")),
   ("top-left", (7, "40", "10", "20")), ("top-right", (9, "10", "40", "20")),
   ("middle", (5, "10", "10", "0"))]

/-- The outline-severity dict inline in `app.overlay_subtitles`. -/
def appOutlineSeverityMap : List (String × String) :=
  [("none", "0"), ("thin", "1"), ("medium", "2"), ("thick", "3"),
   ("extra-thick", "4")]

/-- The shadow-severity dict inline in `app.overlay_subtitles`. -/
def appShadowSeverityMap : List (String × String) :=
  [("none", "0"), ("subtle", "1"), ("medium", "2"), ("large", "3"),
   ("extra-large", "4")]

/-- A style configuration: a flat dict with all keys optional. -/
structure StyleCfg where
  size : Option String
  color : Option String
  bgColor : Option String
  font : Option String
  fontStyle : Option String
  position : Option String
  alignment : Option String
  outlineThickness : Option String
  shadowDistance : Option String
deriving DecidableEq

/-- The empty style configuration (all keys missing). -/
def emptyStyle : StyleCfg := ⟨none, none, none, none, none, none, none, none, none⟩

/-- The concrete style values written into the ASS `Style:` line. -/
structure ResolvedStyle where
  fontSize : String
  fontName : String
  primaryColour : String
  backColour : String
  bold : ℤ
  italic : ℤ
  borderStyle : String
  outline : String
  shadow : String
  alignment : ℤ
  marginL : String
  marginR : String
  marginV : String
deriving DecidableEq

/-- The style computation of `helpers.convert_srt_to_ass` (lines 113-142):
defaults via `dict.get`, colour/font lookups with fallbacks, substring
tests for bold/italic, box mode iff a background colour is set, fixed
outline `'2'` and shadow `'1'`/`'0'`, geometry via
`get_ass_alignment_and_margins`. -/
def helpersResolveStyle (cfg : StyleCfg) : ResolvedStyle :=
  let font_size := cfg.size.getD "20"
  let color_name := cfg.color.getD "white"
  let bg_color_name := cfg.bgColor.getD "none"
  let font_family := (FONT_MAP.lookup (cfg.font.getD "arial")).getD "Arial"
  let font_style := cfg.fontStyle.getD "normal"
  let position := cfg.position.getD "bottom"
  let text_alignment := cfg.alignment.getD "center"
  let primary_color := (COLOR_MAP.lookup color_name).getD "00FFFFFF"
  let back_color := (BG_COLOR_MAP.lookup bg_color_name).getD "FF000000"
  let bold : ℤ := if strContains "bold".data font_style.data then -1 else 0
  let italic : ℤ := if strContains "italic".data font_style.data then -1 else 0
  let has_background := bg_color_name ≠ "none"
  let border_style := if has_background then "4" else "1"
  let outline := "2"
  let shadow := if has_background then "0" else "1"
  let am := get_ass_alignment_and_margins position text_alignment
  ⟨font_size, font_family, primary_color, back_color, bold, italic,
    border_style, outline, shadow, am.1, am.2.1, am.2.2.1, am.2.2.2⟩

/-- The position/alignment adjustment of `app.overlay_subtitles`
(lines 198-210): base from the inline position map, shift by ∓1 with
swapped left/right margins for the three row anchors. -/
def appAlignmentAdjust (position alignment : String) : ℤ × String × String × String :=
  let base := (appPositionMap.lookup position).getD (2, "10", "10", "20")
  if position = "top" ∨ position = "middle" ∨ position = "bottom" then
    if alignment = "left" then (base.1 - 1, "40", "10", base.2.2.2)
    else if alignment = "right" then (base.1 + 1, "10", "40", base.2.2.2)
    else base
  else base

/-- The style computation of `app.overlay_subtitles` (lines 130-231):
same shape as the helpers copy, but the font lookup is
`font_map.get(font_family.lower(), font_family)` (falling back to the
given name), the position map lacks the two middle corners, and
outline/shadow come from named-severity dicts with default `'2'`. -/
def appResolveStyle (cfg : StyleCfg) : ResolvedStyle :=
  let font_size := cfg.size.getD "20"
  let font_color := cfg.color.getD "white"
  let font_family := cfg.font.getD "Arial"
  let bg_color := cfg.bgColor.getD "none"
  let position := cfg.position.getD "bottom"
  let alignment := cfg.alignment.getD "center"
  let outline := cfg.outlineThickness.getD "medium"
  let shadow := cfg.shadowDistance.getD "medium"
  let font_style := cfg.fontStyle.getD "normal"
  let adj := appAlignmentAdjust position alignment
  let primary_color := (appColorMap.lookup font_color).getD "00FFFFFF"
  let back_color := (appBgColorMap.lookup bg_color).getD "FF000000"
  let font_name := (appFontMap.lookup (pyLower font_family)).getD font_family
  let bold : ℤ := if strContains "bold".data font_style.data then -1 else 0
  let italic : ℤ := if strContains "italic".data font_style.data then -1 else 0
  let has_background := bg_color ≠ "none"
  let border_style := if has_background then "4" else "1"
  let outline_val := if has_background then "2"
    else (appOutlineSeverityMap.lookup outline).getD "2"
  let shadow_val := if has_background then "0"
    else (appShadowSeverityMap.lookup shadow).getD "2"
  ⟨font_size, font_name, primary_color, back_color, bold, italic,
    border_style, outline_val, shadow_val, adj.1, adj.2.1, adj.2.2.1, adj.2.2.2⟩

/-! ### Substring characterisation -/

theorem strStarts_iff : ∀ (n h : List Char), strStarts n h = true ↔ ∃ suf, h = n ++ suf
  | [], h => by simp [strStarts]
  | a :: as, [] => by
    simp only [strStarts]
    exact ⟨fun h => Bool.noConfusion h, fun ⟨suf, hs⟩ => List.noConfusion hs⟩
  | a :: as, b :: bs => by
    simp only [strStarts, Bool.and_eq_true, decide_eq_true_eq]
    constructor
    · rintro ⟨rfl, h2⟩
      obtain ⟨suf, rfl⟩ := (strStarts_iff as bs).mp h2
      exact ⟨suf, rfl⟩
    · rintro ⟨suf, heq⟩
      injection heq with h1 h2
      exact ⟨h1.symm, (strStarts_iff as bs).mpr ⟨suf, h2⟩⟩

theorem strContains_iff :
    ∀ (n h : List Char), strContains n h = true ↔ ∃ pre suf, h = pre ++ n ++ suf
  | n, [] => by
    simp only [strContains]
    rw [strStarts_iff]
    constructor
    · rintro ⟨suf, hs⟩
      exact ⟨[], suf, hs⟩
    · rintro ⟨pre, suf, hs⟩
      obtain ⟨h1, hsuf⟩ := List.append_eq_nil.mp hs.symm
      obtain ⟨hpre, hn⟩ := List.append_eq_nil.mp h1
      exact ⟨[], by rw [hn]; rfl⟩
  | n, c :: t => by
    simp only [strContains, Bool.or_eq_true]
    rw [strStarts_iff, strContains_iff n t]
    constructor
    · rintro (⟨suf, hs⟩ | ⟨pre, suf, hs⟩)
      · exact ⟨[], suf, by simpa using hs⟩
      · exact ⟨c :: pre, suf, by simp [hs]⟩
    · rintro ⟨pre, suf, heq⟩
      cases pre with
      | nil => exact Or.inl ⟨suf, by simpa using heq⟩
      | cons p ps =>
        injection heq with h1 h2
        exact Or.inr ⟨ps, suf, by simpa using h2⟩

theorem getD_of_isNone {α : Type _} {x : Option α} (h : x.isNone = true) (d : α) :
    x.getD d = d := by
  cases x with
  | none => rfl
  | some v => simp at h

/-! ### Claim theorems: style resolution -/

theorem get_ass_row_other (p : String)
    (hp : p = "top" ∨ p = "middle" ∨ p = "bottom") (a : String)
    (h1 : a ≠ "left") (h2 : a ≠ "right") :
    get_ass_alignment_and_margins p a =
      (((position_map.lookup p).getD (2, "10", "10", "20")).1, "10", "10",
        ((position_map.lookup p).getD (2, "10", "10", "20")).2.2.2) := by
  simp only [get_ass_alignment_and_margins]
  rw [if_pos hp, if_neg h1, if_neg h2]

/-- C5 counterexample: on the empty configuration the helpers copy of the
style resolver hard-codes shadow `'1'`, which is not the named-severity
tables' `"medium"` entry `'2'`. -/
theorem c5_default_shadow_counterexample :
    (helpersResolveStyle emptyStyle).shadow = "1" ∧
    appShadowSeverityMap.lookup "medium" = some "2" ∧ ("1" : String) ≠ "2" := by
  refine ⟨by decide, by decide, by decide⟩

/-- C5 amended: resolving the empty configuration yields the documented
default style — white text `00FFFFFF`, background `FF000000`, border mode
outline (BorderStyle 1), alignment 2 with margins 10/10/20, bold and
italic 0, medium (`'2'`) outline — with medium (`'2'`) shadow in the app
resolver (the one holding the severity tables), while the helpers resolver
hard-codes shadow `'1'`. -/
theorem c5_default_style_amended :
    appResolveStyle emptyStyle =
      ⟨"20", "Arial", "00FFFFFF", "FF000000", 0, 0, "1", "2", "2", 2, "10", "10", "20"⟩ ∧
    appOutlineSeverityMap.lookup "medium" = some "2" ∧
    appShadowSeverityMap.lookup "medium" = some "2" ∧
    helpersResolveStyle emptyStyle =
      ⟨"20", "Arial", "00FFFFFF", "FF000000", 0, 0, "1", "2", "1", 2, "10", "10", "20"⟩ := by
  refine ⟨by decide, by decide, by decide, by decide⟩

/-- C6 counterexample: the position map inline in `app.overlay_subtitles`
has no `middle-left` entry, so that zone falls back to bottom-center
(code 2), not its numpad code 4. -/
theorem c6_middle_left_counterexample :
    (appResolveStyle ⟨none, none, none, none, none, some "middle-left", none, none, none⟩).alignment = 2 ∧
    ((2 : ℤ) ≠ 4) ∧
    appPositionMap.lookup "middle-left" = none ∧
    position_map.lookup "middle-left" = some (4, "40", "10", "0") := by
  refine ⟨by decide, by decide, by decide, by decide⟩

/-- C6 amended: `get_ass_alignment_and_margins` (helpers) maps all 9 named
zones to their numpad codes with the documented margins; row anchors shift
by ∓1 with margins swapped for left/right alignment and are unchanged for
any other alignment value; corners ignore alignment; `top`+`left` yields
code 7 = top base − 1.  The app resolver's inline map lacks `middle-left`
and `middle-right`, which fall back to bottom-center there. -/
theorem c6_alignment_geometry_amended :
    (∀ a : String,
      get_ass_alignment_and_margins "top-left" a = (7, "40", "10", "20") ∧
      get_ass_alignment_and_margins "top-right" a = (9, "10", "40", "20") ∧
      get_ass_alignment_and_margins "middle-left" a = (4, "40", "10", "0") ∧
      get_ass_alignment_and_margins "middle-right" a = (6, "10", "40", "0") ∧
      get_ass_alignment_and_margins "bottom-left" a = (1, "40", "10", "20") ∧
      get_ass_alignment_and_margins "bottom-right" a = (3, "10", "40", "20")) ∧
    (get_ass_alignment_and_margins "top" "left" = (7, "40", "10", "20") ∧
      get_ass_alignment_and_margins "top" "right" = (9, "10", "40", "20") ∧
      get_ass_alignment_and_margins "middle" "left" = (4, "40", "10", "0") ∧
      get_ass_alignment_and_margins "middle" "right" = (6, "10", "40", "0") ∧
      get_ass_alignment_and_margins "bottom" "left" = (1, "40", "10", "20") ∧
      get_ass_alignment_and_margins "bottom" "right" = (3, "10", "40", "20")) ∧
    (∀ a : String, a ≠ "left" → a ≠ "right" →
      get_ass_alignment_and_margins "top" a = (8, "10", "10", "20") ∧
      get_ass_alignment_and_margins "middle" a = (5, "10", "10", "0") ∧
      get_ass_alignment_and_margins "bottom" a = (2, "10", "10", "20")) ∧
    (get_ass_alignment_and_margins "top" "left").1 =
      (get_ass_alignment_and_margins "top" "center").1 - 1 ∧
    (appResolveStyle ⟨none, none, none, none, none, some "middle-left", none, none, none⟩).alignment = 2 ∧
    (appResolveStyle ⟨none, none, none, none, none, some "middle-right", none, none, none⟩).alignment = 2 := by
  refine ⟨?_, ?_, ?_, by decide, by decide, by decide⟩
  · intro a
    refine ⟨rfl, rfl, rfl, rfl, rfl, rfl⟩
  · refine ⟨by decide, by decide, by decide, by decide, by decide, by decide⟩
  · intro a h1 h2
    refine ⟨?_, ?_, ?_⟩
    · rw [get_ass_row_other "top" (Or.inl rfl) a h1 h2]; decide
    · rw [get_ass_row_other "middle" (Or.inr (Or.inl rfl)) a h1 h2]; decide
    · rw [get_ass_row_other "bottom" (Or.inr (Or.inr rfl)) a h1 h2]; decide

/-- Witness for C6: the row-anchor case at the concrete alignment
`"center"`. -/
theorem c6_alignment_geometry_amended_w :
    (("center" : String) ≠ "left") ∧ (("center" : String) ≠ "right") ∧
    get_ass_alignment_and_margins "bottom" "center" = (2, "10", "10", "20") := by
  refine ⟨by decide, by decide,
    (c6_alignment_geometry_amended.2.2.1 "center" (by decide) (by decide)).2.2⟩

theorem get_ass_unknown (p a : String)
    (h : (position_map.lookup p).isNone = true) :
    get_ass_alignment_and_margins p a = (2, "10", "10", "20") := by
  have hp1 : p ≠ "top" := by intro he; rw [he] at h; exact absurd h (by decide)
  have hp2 : p ≠ "middle" := by intro he; rw [he] at h; exact absurd h (by decide)
  have hp3 : p ≠ "bottom" := by intro he; rw [he] at h; exact absurd h (by decide)
  rw [Option.isNone_iff_eq_none] at h
  simp only [get_ass_alignment_and_margins, h]
  rw [if_neg (by rintro (h' | h' | h') <;> simp_all)]
  rfl

theorem appAdjust_unknown (p a : String)
    (h : (appPositionMap.lookup p).isNone = true) :
    appAlignmentAdjust p a = (2, "10", "10", "20") := by
  have hp1 : p ≠ "top" := by intro he; rw [he] at h; exact absurd h (by decide)
  have hp2 : p ≠ "middle" := by intro he; rw [he] at h; exact absurd h (by decide)
  have hp3 : p ≠ "bottom" := by intro he; rw [he] at h; exact absurd h (by decide)
  rw [Option.isNone_iff_eq_none] at h
  simp only [appAlignmentAdjust, h]
  rw [if_neg (by rintro (h' | h' | h') <;> simp_all)]
  rfl

/-- C7 counterexample: an unknown font name is kept verbatim by the app
resolver (not replaced by the default family Arial), and an unknown shadow
severity yields the fixed value `'1'` (not the medium value `'2'`) in the
helpers resolver. -/
theorem c7_font_fallback_counterexample :
    (appResolveStyle ⟨none, none, none, some "futura", none, none, none, none, none⟩).fontName = "futura" ∧
    ("futura" : String) ≠ "Arial" ∧
    appFontMap.lookup (pyLower "futura") = none ∧
    (helpersResolveStyle ⟨none, none, none, none, none, none, none, none, some "huge"⟩).shadow = "1" ∧
    ("1" : String) ≠ "2" := by
  refine ⟨by decide, by decide, by decide, by decide, by decide⟩

/-- C7 amended: style resolution is total and never raises; unknown colour
names fall back to white `00FFFFFF`, unknown background names to the
`none` entry `FF000000`, unknown positions to bottom-center
(2, 10/10/20), and — with no background — unknown outline/shadow severity
names to the medium value `'2'` in the app resolver, which holds the
severity tables (the helpers resolver ignores severity names: outline
fixed `'2'`, shadow fixed `'1'`).  An unknown font name falls back to
Arial in the helpers resolver but to the caller-provided font string in
the app resolver. -/
theorem c7_fallback_amended (cfg : StyleCfg) :
    ((COLOR_MAP.lookup (cfg.color.getD "white")).isNone = true →
      (helpersResolveStyle cfg).primaryColour = "00FFFFFF") ∧
    ((appColorMap.lookup (cfg.color.getD "white")).isNone = true →
      (appResolveStyle cfg).primaryColour = "00FFFFFF") ∧
    ((BG_COLOR_MAP.lookup (cfg.bgColor.getD "none")).isNone = true →
      (helpersResolveStyle cfg).backColour = "FF000000") ∧
    ((appBgColorMap.lookup (cfg.bgColor.getD "none")).isNone = true →
      (appResolveStyle cfg).backColour = "FF000000") ∧
    ((FONT_MAP.lookup (cfg.font.getD "arial")).isNone = true →
      (helpersResolveStyle cfg).fontName = "Arial") ∧
    ((appFontMap.lookup (pyLower (cfg.font.getD "Arial"))).isNone = true →
      (appResolveStyle cfg).fontName = cfg.font.getD "Arial") ∧
    ((position_map.lookup (cfg.position.getD "bottom")).isNone = true →
      (helpersResolveStyle cfg).alignment = 2 ∧
      (helpersResolveStyle cfg).marginL = "10" ∧
      (helpersResolveStyle cfg).marginR = "10" ∧
      (helpersResolveStyle cfg).marginV = "20") ∧
    ((appPositionMap.lookup (cfg.position.getD "bottom")).isNone = true →
      (appResolveStyle cfg).alignment = 2 ∧
      (appResolveStyle cfg).marginL = "10" ∧
      (appResolveStyle cfg).marginR = "10" ∧
      (appResolveStyle cfg).marginV = "20") ∧
    (cfg.bgColor.getD "none" = "none" →
      ((appOutlineSeverityMap.lookup (cfg.outlineThickness.getD "medium")).isNone = true →
        (appResolveStyle cfg).outline = "2") ∧
      ((appShadowSeverityMap.lookup (cfg.shadowDistance.getD "medium")).isNone = true →
        (appResolveStyle cfg).shadow = "2") ∧
      (helpersResolveStyle cfg).outline = "2" ∧
      (helpersResolveStyle cfg).shadow = "1") := by
  refine ⟨?_, ?_, ?_, ?_, ?_, ?_, ?_, ?_, ?_⟩
  · intro h
    have e : (helpersResolveStyle cfg).primaryColour =
        (COLOR_MAP.lookup (cfg.color.getD "white")).getD "00FFFFFF" := rfl
    rw [e, getD_of_isNone h]
  · intro h
    have e : (appResolveStyle cfg).primaryColour =
        (appColorMap.lookup (cfg.color.getD "white")).getD "00FFFFFF" := rfl
    rw [e, getD_of_isNone h]
  · intro h
    have e : (helpersResolveStyle cfg).backColour =
        (BG_COLOR_MAP.lookup (cfg.bgColor.getD "none")).getD "FF000000" := rfl
    rw [e, getD_of_isNone h]
  · intro h
    have e : (appResolveStyle cfg).backColour =
        (appBgColorMap.lookup (cfg.bgColor.getD "none")).getD "FF000000" := rfl
    rw [e, getD_of_isNone h]
  · intro h
    have e : (helpersResolveStyle cfg).fontName =
        (FONT_MAP.lookup (cfg.font.getD "arial")).getD "Arial" := rfl
    rw [e, getD_of_isNone h]
  · intro h
    have e : (appResolveStyle cfg).fontName =
        (appFontMap.lookup (pyLower (cfg.font.getD "Arial"))).getD (cfg.font.getD "Arial") := rfl
    rw [e, getD_of_isNone h]
  · intro h
    have e1 : (helpersResolveStyle cfg).alignment =
        (get_ass_alignment_and_margins (cfg.position.getD "bottom")
          (cfg.alignment.getD "center")).1 := rfl
    have e2 : (helpersResolveStyle cfg).marginL =
        (get_ass_alignment_and_margins (cfg.position.getD "bottom")
          (cfg.alignment.getD "center")).2.1 := rfl
    have e3 : (helpersResolveStyle cfg).marginR =
        (get_ass_alignment_and_margins (cfg.position.getD "bottom")
          (cfg.alignment.getD "center")).2.2.1 := rfl
    have e4 : (helpersResolveStyle cfg).marginV =
        (get_ass_alignment_and_margins (cfg.position.getD "bottom")
          (cfg.alignment.getD "center")).2.2.2 := rfl
    rw [e1, e2, e3, e4, get_ass_unknown _ _ h]
    exact ⟨rfl, rfl, rfl, rfl⟩
  · intro h
    have e1 : (appResolveStyle cfg).alignment =
        (appAlignmentAdjust (cfg.position.getD "bottom")
          (cfg.alignment.getD "center")).1 := rfl
    have e2 : (appResolveStyle cfg).marginL =
        (appAlignmentAdjust (cfg.position.getD "bottom")
          (cfg.alignment.getD "center")).2.1 := rfl
    have e3 : (appResolveStyle cfg).marginR =
        (appAlignmentAdjust (cfg.position.getD "bottom")
          (cfg.alignment.getD "center")).2.2.1 := rfl
    have e4 : (appResolveStyle cfg).marginV =
        (appAlignmentAdjust (cfg.position.getD "bottom")
          (cfg.alignment.getD "center")).2.2.2 := rfl
    rw [e1, e2, e3, e4, appAdjust_unknown _ _ h]
    exact ⟨rfl, rfl, rfl, rfl⟩
  · intro hbg
    refine ⟨?_, ?_, rfl, ?_⟩
    · intro h
      have e : (appResolveStyle cfg).outline =
          if cfg.bgColor.getD "none" ≠ "none" then "2"
          else (appOutlineSeverityMap.lookup (cfg.outlineThickness.getD "medium")).getD "2" := rfl
      rw [e, if_neg (not_not_intro hbg), getD_of_isNone h]
    · intro h
      have e : (appResolveStyle cfg).shadow =
          if cfg.bgColor.getD "none" ≠ "none" then "0"
          else (appShadowSeverityMap.lookup (cfg.shadowDistance.getD "medium")).getD "2" := rfl
      rw [e, if_neg (not_not_intro hbg), getD_of_isNone h]
    · have e : (helpersResolveStyle cfg).shadow =
          if cfg.bgColor.getD "none" ≠ "none" then "0" else "1" := rfl
      rw [e, if_neg (not_not_intro hbg)]

/-- Witness for C7: the fallbacks at a configuration whose colour, font,
position and severity names are all unknown. -/
theorem c7_fallback_amended_w :
    (helpersResolveStyle ⟨none, some "blurple", none, some "futura", none, some "nowhere", none, some "wild", some "wild"⟩).primaryColour = "00FFFFFF" ∧
    (appResolveStyle ⟨none, some "blurple", none, some "futura", none, some "nowhere", none, some "wild", some "wild"⟩).fontName = "futura" ∧
    (helpersResolveStyle ⟨none, some "blurple", none, some "futura", none, some "nowhere", none, some "wild", some "wild"⟩).alignment = 2 ∧
    (appResolveStyle ⟨none, some "blurple", none, some "futura", none, some "nowhere", none, some "wild", some "wild"⟩).shadow = "2" := by
  have h := c7_fallback_amended
    ⟨none, some "blurple", none, some "futura", none, some "nowhere", none, some "wild", some "wild"⟩
  exact ⟨h.1 (by decide), h.2.2.2.2.2.1 (by decide),
    (h.2.2.2.2.2.2.1 (by decide)).1, (h.2.2.2.2.2.2.2.2 (by decide)).2.1 (by decide)⟩

/-- C10: in both resolvers the bold flag is `-1` exactly when `"bold"`
occurs as a contiguous substring of the `fontStyle` value (default
`"normal"`), and `0` otherwise; likewise the italic flag with
`"italic"`; a missing `fontStyle` yields flags 0. -/
theorem c10_font_style_substring_flags (cfg : StyleCfg) :
    ((helpersResolveStyle cfg).bold = -1 ↔
      ∃ pre suf, (cfg.fontStyle.getD "normal").data = pre ++ "bold".data ++ suf) ∧
    ((helpersResolveStyle cfg).bold ≠ -1 → (helpersResolveStyle cfg).bold = 0) ∧
    ((helpersResolveStyle cfg).italic = -1 ↔
      ∃ pre suf, (cfg.fontStyle.getD "normal").data = pre ++ "italic".data ++ suf) ∧
    ((helpersResolveStyle cfg).italic ≠ -1 → (helpersResolveStyle cfg).italic = 0) ∧
    (appResolveStyle cfg).bold = (helpersResolveStyle cfg).bold ∧
    (appResolveStyle cfg).italic = (helpersResolveStyle cfg).italic ∧
    (cfg.fontStyle = none →
      (helpersResolveStyle cfg).bold = 0 ∧ (helpersResolveStyle cfg).italic = 0) := by
  have eb : (helpersResolveStyle cfg).bold =
      if strContains "bold".data (cfg.fontStyle.getD "normal").data then -1 else 0 := rfl
  have ei : (helpersResolveStyle cfg).italic =
      if strContains "italic".data (cfg.fontStyle.getD "normal").data then -1 else 0 := rfl
  refine ⟨?_, ?_, ?_, ?_, rfl, rfl, ?_⟩
  · rw [eb]
    by_cases h : strContains "bold".data (cfg.fontStyle.getD "normal").data = true
    · rw [if_pos h]
      simp only [true_iff, iff_true]
      exact (strContains_iff _ _).mp h
    · rw [if_neg h]
      constructor
      · intro hz; exact absurd hz (by decide)
      · intro he; exact absurd ((strContains_iff _ _).mpr he) h
  · rw [eb]
    by_cases h : strContains "bold".data (cfg.fontStyle.getD "normal").data = true
    · rw [if_pos h]; intro hc; exact absurd rfl hc
    · rw [if_neg h]; intro _; rfl
  · rw [ei]
    by_cases h : strContains "italic".data (cfg.fontStyle.getD "normal").data = true
    · rw [if_pos h]
      simp only [true_iff, iff_true]
      exact (strContains_iff _ _).mp h
    · rw [if_neg h]
      constructor
      · intro hz; exact absurd hz (by decide)
      · intro he; exact absurd ((strContains_iff _ _).mpr he) h
  · rw [ei]
    by_cases h : strContains "italic".data (cfg.fontStyle.getD "normal").data = true
    · rw [if_pos h]; intro hc; exact absurd rfl hc
    · rw [if_neg h]; intro _; rfl
  · intro hfs
    rw [eb, ei, hfs]
    exact ⟨by decide, by decide⟩

/-- Witness for C10: `fontStyle = "semibold italicized"` switches both
flags on (the tokens occur only as proper substrings), and the default
configuration leaves both off. -/
theorem c10_font_style_substring_flags_w :
    (helpersResolveStyle ⟨none, none, none, none, some "semibold italicized", none, none, none, none⟩).bold = -1 ∧
    (helpersResolveStyle ⟨none, none, none, none, some "semibold italicized", none, none, none, none⟩).italic = -1 ∧
    (helpersResolveStyle emptyStyle).bold = 0 ∧
    (helpersResolveStyle emptyStyle).italic = 0 := by
  have h := c10_font_style_substring_flags
    ⟨none, none, none, none, some "semibold italicized", none, none, none, none⟩
  have h0 := c10_font_style_substring_flags emptyStyle
  exact ⟨h.1.mpr ⟨"semi".data, " italicized".data, by decide⟩,
    h.2.2.1.mpr ⟨"semibold ".data, "ized".data, by decide⟩,
    (h0.2.2.2.2.2.2 rfl).1, (h0.2.2.2.2.2.2 rfl).2⟩

/-! ### Muxer (`helpers.overlay_subtitles`)

The file system is an explicit association of paths to sizes, the external
encoder a behaviour parameter (timeout / exit code / diagnostic stream /
what it leaves at the output path), and the function returns the Python
exception (if any) together with the spawned commands and final file
system. -/

/-- Structural worker for `pyReplaceStr` (fuel bounds the scan length). -/
def pyReplaceF : ℕ → List Char → List Char → List Char → List Char
  | _, _, _, [] => []
  | 0, _, _, l => l
  | fuel + 1, pat, rep, c :: t =>
    if strStarts pat (c :: t) then rep ++ pyReplaceF fuel pat rep ((c :: t).drop pat.length)
    else c :: pyReplaceF fuel pat rep t

/-- Python `s.replace(pat, rep)`: replace all non-overlapping occurrences,
left to right (used here with the nonempty patterns `'.srt'` and `':'`). -/
def pyReplaceStr (pat rep s : String) : String :=
  ⟨pyReplaceF s.data.length pat.data rep.data s.data⟩

/-- A file system: paths with file sizes. -/
structure FS where
  files : List (String × ℕ)
deriving DecidableEq

def fsHas (fs : FS) (p : String) : Bool := (fs.files.lookup p).isSome

def fsSize (fs : FS) (p : String) : ℕ := (fs.files.lookup p).getD 0

def fsWrite (fs : FS) (p : String) (n : ℕ) : FS := ⟨(p, n) :: fs.files⟩

def fsRemove (fs : FS) (p : String) : FS := ⟨fs.files.filter (fun e => e.1 != p)⟩

/-- The Python exception classes arising in `overlay_subtitles`. -/
inductive PyErr where
  | fileNotFound (msg : String)
  | timeoutExpired
  | calledProcessError (errStream : String)
  | exceptionE (msg : String)
deriving DecidableEq

/-- Behaviour of one external encoder invocation: whether it exceeds the
timeout, its exit code, its captured diagnostic stream, and the size of
the file it leaves at the output path (`none` = no file). -/
structure EncSpec where
  timesOut : Bool
  exitCode : ℤ
  errStream : String
  outSize : Option ℕ
deriving DecidableEq

deriving instance DecidableEq for Except

/-- Result of a muxer run: the Python outcome, the spawned commands in
order, and the final file system. -/
structure MuxOut where
  result : Except PyErr Bool
  spawned : List (List String)
  fs : FS
deriving DecidableEq

/-- The body of `helpers.overlay_subtitles` (the `try` block): existence
checks, `convert_srt_to_ass` writing the `.ass` artifact, the escaped
filter argument, one bounded `subprocess.run`, the output check, and the
success-path cleanup.  `os.path.abspath` is modelled as the identity
(paths are supplied absolute) and the POSIX branch of the `os.name` test
is taken.  On timeout the run raises before the output check; any file
the encoder leaves at the output path is recorded once the process
finishes. -/
def overlayBody (env : EncSpec) (fs0 : FS)
    (input_path srt_path output_path : String) : MuxOut :=
  let ass_path := pyReplaceStr ".srt" ".ass" srt_path
  if fsHas fs0 input_path = false then
    ⟨.error (.fileNotFound ("Input not found: " ++ input_path)), [], fs0⟩
  else if fsHas fs0 srt_path = false then
    ⟨.error (.fileNotFound ("SRT not found: " ++ srt_path)), [], fs0⟩
  else
    let fs1 := fsWrite fs0 ass_path 1
    let ass_escaped := pyReplaceStr ":" "\\:" ass_path
    let cmd := ["ffmpeg", "-y", "-i", input_path, "-vf",
      "ass='" ++ ass_escaped ++ "'", "-c:v", "libx264", "-c:a", "aac",
      "-b:a", "192k", "-crf", "23", "-preset", "fast", "-movflags",
      "+faststart", output_path]
    if env.timesOut then
      ⟨.error .timeoutExpired, [cmd], fs1⟩
    else
      let fs2 := match env.outSize with
        | some n => fsWrite fs1 output_path n
        | none => fs1
      if env.exitCode ≠ 0 then
        ⟨.error (.calledProcessError env.errStream), [cmd], fs2⟩
      else if fsHas fs2 output_path = false ∨ fsSize fs2 output_path = 0 then
        ⟨.error (.exceptionE "FFmpeg output empty"), [cmd], fs2⟩
      else
        ⟨.ok true, [cmd], fsRemove fs2 ass_path⟩

/-- The `except` chain of `helpers.overlay_subtitles`: `TimeoutExpired`
and `CalledProcessError` are re-raised as plain `Exception`s with fixed
prefixes, and every other exception (including the `FileNotFoundError`s
raised by the body) is caught by the final `except Exception` and wrapped
as `Exception("Overlay failed: ...")`.  Either way the caller observes a
plain `Exception`. -/
def overlayHandlers : PyErr → PyErr
  | .timeoutExpired => .exceptionE "FFmpeg timeout"
  | .calledProcessError st => .exceptionE ("FFmpeg error: " ++ st)
  | .fileNotFound m => .exceptionE ("Overlay failed: " ++ m)
  | .exceptionE m => .exceptionE ("Overlay failed: " ++ m)

/-- `helpers.overlay_subtitles`: the `try` body with its handler chain. -/
def overlay_subtitles (env : EncSpec) (fs0 : FS)
    (input_path srt_path output_path : String) (cfg : StyleCfg) : MuxOut :=
  let body := overlayBody env fs0 input_path srt_path output_path
  ⟨match body.result with
    | .ok v => .ok v
    | .error e => .error (overlayHandlers e), body.spawned, body.fs⟩

/-- Whether a muxer outcome is a typed file-not-found failure. -/
def isFileNotFound : Except PyErr Bool → Bool
  | .error (.fileNotFound _) => true
  | _ => false

/-- C8 counterexample: with the input video missing, `overlay_subtitles`
spawns nothing, but the error the caller observes is a plain wrapped
`Exception`, not the typed file-not-found error (the internal
`FileNotFoundError` is swallowed by the final `except Exception`). -/
theorem c8_untyped_error_counterexample :
    (overlay_subtitles ⟨false, 0, "", some 100⟩ ⟨[("/tmp/c.srt", 10)]⟩
      "/tmp/in.mp4" "/tmp/c.srt" "/tmp/out.mp4" emptyStyle).spawned = [] ∧
    (overlay_subtitles ⟨false, 0, "", some 100⟩ ⟨[("/tmp/c.srt", 10)]⟩
      "/tmp/in.mp4" "/tmp/c.srt" "/tmp/out.mp4" emptyStyle).result =
      .error (.exceptionE "Overlay failed: Input not found: /tmp/in.mp4") ∧
    isFileNotFound (overlay_subtitles ⟨false, 0, "", some 100⟩ ⟨[("/tmp/c.srt", 10)]⟩
      "/tmp/in.mp4" "/tmp/c.srt" "/tmp/out.mp4" emptyStyle).result = false := by
  refine ⟨by decide, by decide, by decide⟩

/-- C8 amended: whenever the input video path does not exist,
`overlay_subtitles` fails before any encoder process is spawned and before
any file is written; a `FileNotFoundError` is raised internally but the
function's catch-all handler wraps it, so the caller observes a plain
`Exception` whose message is `Overlay failed: Input not found: <path>`. -/
theorem c8_input_check_amended (env : EncSpec) (fs : FS)
    (input srt output : String) (cfg : StyleCfg)
    (h : fsHas fs input = false) :
    (overlay_subtitles env fs input srt output cfg).spawned = [] ∧
    (overlay_subtitles env fs input srt output cfg).result =
      .error (.exceptionE ("Overlay failed: " ++ ("Input not found: " ++ input))) ∧
    (overlay_subtitles env fs input srt output cfg).fs = fs := by
  have hb : overlayBody env fs input srt output =
      ⟨.error (.fileNotFound ("Input not found: " ++ input)), [], fs⟩ := by
    simp only [overlayBody]
    rw [if_pos h]
  refine ⟨?_, ?_, ?_⟩ <;> simp [overlay_subtitles, hb, overlayHandlers]

/-- Witness for C8: the amended theorem at a concrete state with no input
file. -/
theorem c8_input_check_amended_w :
    fsHas ⟨[("/tmp/c.srt", 10)]⟩ "/tmp/in.mp4" = false ∧
    (overlay_subtitles ⟨false, 0, "", some 100⟩ ⟨[("/tmp/c.srt", 10)]⟩
      "/tmp/in.mp4" "/tmp/c.srt" "/tmp/out.mp4" emptyStyle).spawned = [] := by
  exact ⟨by decide, (c8_input_check_amended ⟨false, 0, "", some 100⟩
    ⟨[("/tmp/c.srt", 10)]⟩ "/tmp/in.mp4" "/tmp/c.srt" "/tmp/out.mp4"
    emptyStyle (by decide)).1⟩

/-- The muxer run of the C9 scenario: input and SRT present, encoder exits
with status 1 and diagnostic stream `boom`, leaving no output file. -/
def c9Out : MuxOut :=
  overlay_subtitles ⟨false, 1, "boom", none⟩
    ⟨[("/tmp/in.mp4", 5), ("/tmp/c.srt", 7)]⟩
    "/tmp/in.mp4" "/tmp/c.srt" "/tmp/out.mp4" emptyStyle

/-- C9: when the encoder exits non-zero, `overlay_subtitles` raises an
exception that carries the captured diagnostic stream and surfaces no
output file — but the transient `.ass` artifact is NOT removed (cleanup
runs only on the success path), and the exception is a plain `Exception`,
not a typed encoder error. -/
theorem c9_encoder_error_leaves_artifact :
    c9Out.result = .error (.exceptionE "FFmpeg error: boom") ∧
    c9Out.spawned.length = 1 ∧
    fsHas c9Out.fs "/tmp/c.ass" = true ∧
    fsHas c9Out.fs "/tmp/out.mp4" = false := by
  refine ⟨by decide, by decide, by decide, by decide⟩

/-! ### TimeCodec round-trip machinery (C2) -/

/-- Digit characters are none of the separators used by the two formats. -/
def noSep (c : Char) : Bool := c != ':' && c != ',' && c != '.'

theorem digits2_facts : ∀ n, n < 100 → digitsVal? (digits2 n) = some n ∧
    (digits2 n).length = 2 ∧ (digits2 n).all noSep = true := by decide

theorem natDigits_facts : ∀ n, n < 100 → digitsVal? (natDigits n) = some n ∧
    (natDigits n).all noSep = true := by decide

set_option maxRecDepth 4000 in
theorem digits3_facts : ∀ n, n < 1000 → digitsVal? (digits3 n) = some n ∧
    (digits3 n).length = 3 ∧ (digits3 n).all noSep = true := by decide

theorem all_ne_of_noSep {l : List Char} (h : l.all noSep = true) (sep : Char)
    (hs : noSep sep = false) : l.all (fun c => c != sep) = true := by
  rw [List.all_eq_true] at h ⊢
  intro x hx
  have hn := h x hx
  have : x ≠ sep := by
    intro he
    rw [he, hs] at hn
    exact Bool.noConfusion hn
  simpa using this

theorem map_comma_id {l : List Char} (h : l.all noSep = true) :
    replaceChar ',' '.' l = l := by
  induction l with
  | nil => rfl
  | cons c t ih =>
    rw [List.all_cons, Bool.and_eq_true] at h
    have hc : c ≠ ',' := by
      intro he
      rw [he] at h
      exact absurd h.1 (by decide)
    simp only [replaceChar, List.map_cons] at ih ⊢
    rw [if_neg hc, ih h.2]

theorem splitChar_ne_nil (sep : Char) : ∀ l : List Char, splitChar sep l ≠ []
  | [] => by simp [splitChar]
  | x :: xs => by
    simp only [splitChar]
    by_cases h : x = sep
    · rw [if_pos h]; simp
    · rw [if_neg h]
      cases hs : splitChar sep xs with
      | nil => simp
      | cons p ps => simp

theorem splitChar_single {sep : Char} :
    ∀ {a : List Char}, a.all (fun c => c != sep) = true → splitChar sep a = [a]
  | [], _ => rfl
  | x :: xs, h => by
    rw [List.all_cons, Bool.and_eq_true] at h
    have hx : x ≠ sep := by simpa using h.1
    simp only [splitChar, if_neg hx]
    rw [splitChar_single h.2]

theorem splitChar_append (sep : Char) :
    ∀ (a b : List Char), a.all (fun c => c != sep) = true →
      splitChar sep (a ++ sep :: b) = a :: splitChar sep b
  | [], b, _ => by simp [splitChar]
  | x :: xs, b, h => by
    rw [List.all_cons, Bool.and_eq_true] at h
    have hx : x ≠ sep := by simpa using h.1
    simp only [List.cons_append, splitChar, if_neg hx, List.append_eq]
    rw [splitChar_append sep xs b h.2]

/-- Parsing the seconds field `SS.mmm` produced by an SRT timestamp with a
three-digit milliseconds part. -/
theorem pyFloat_fields (ss ms : ℕ) (h3 : ss < 100) (h4 : ms < 1000) :
    pyFloat? (digits2 ss ++ '.' :: digits3 ms) = some ((ss : ℚ) + (ms : ℚ) / 1000) := by
  have f2 := digits2_facts ss h3
  have f3 := digits3_facts ms h4
  have hsplit : splitChar '.' (digits2 ss ++ '.' :: digits3 ms) =
      [digits2 ss, digits3 ms] := by
    rw [splitChar_append '.' _ _ (all_ne_of_noSep f2.2.2 '.' (by decide)),
      splitChar_single (all_ne_of_noSep f3.2.2 '.' (by decide))]
  simp only [pyFloat?, hsplit, f2.1, f3.1, f3.2.1]
  norm_num

theorem replaceChar_append (o n : Char) (a b : List Char) :
    replaceChar o n (a ++ b) = replaceChar o n a ++ replaceChar o n b := by
  simp [replaceChar]

theorem replaceChar_cons (o n c : Char) (t : List Char) :
    replaceChar o n (c :: t) = (if c = o then n else c) :: replaceChar o n t := by
  simp [replaceChar]

/-- What `convert_time_srt_to_ass` does to a well-formed SRT timestamp,
at the level of its numeric fields. -/
theorem convert_time_fields (hh mm ss ms : ℕ) (h1 : hh < 100) (h2 : mm < 100)
    (h3 : ss < 100) (h4 : ms < 1000) :
    convert_time_srt_to_ass
        ⟨digits2 hh ++ ':' :: digits2 mm ++ ':' :: digits2 ss ++ ',' :: digits3 ms⟩ =
      some ⟨natDigits hh ++ ':' :: digits2 mm ++ ':' :: fmt052 ((ss : ℚ) + (ms : ℚ) / 1000)⟩ := by
  have f2h := digits2_facts hh h1
  have f2m := digits2_facts mm h2
  have f2s := digits2_facts ss h3
  have f3 := digits3_facts ms h4
  have hrepl : replaceChar ',' '.'
      (digits2 hh ++ ':' :: digits2 mm ++ ':' :: digits2 ss ++ ',' :: digits3 ms) =
      digits2 hh ++ ':' :: digits2 mm ++ ':' :: digits2 ss ++ '.' :: digits3 ms := by
    rw [replaceChar_append, replaceChar_cons, replaceChar_append, replaceChar_cons,
      replaceChar_append, replaceChar_cons, map_comma_id f2h.2.2, map_comma_id f2m.2.2,
      map_comma_id f2s.2.2, map_comma_id f3.2.2]
    simp
  have hCE : (digits2 ss ++ '.' :: digits3 ms).all (fun c => c != ':') = true := by
    rw [List.all_append, List.all_cons]
    simp [all_ne_of_noSep f2s.2.2 ':' (by decide), all_ne_of_noSep f3.2.2 ':' (by decide)]
  have hsplit : splitChar ':'
      (digits2 hh ++ ':' :: digits2 mm ++ ':' :: digits2 ss ++ '.' :: digits3 ms) =
      [digits2 hh, digits2 mm, digits2 ss ++ '.' :: digits3 ms] := by
    simp only [List.append_assoc, List.cons_append]
    rw [splitChar_append ':' _ _ (all_ne_of_noSep f2h.2.2 ':' (by decide)),
      splitChar_append ':' _ _ (all_ne_of_noSep f2m.2.2 ':' (by decide)),
      splitChar_single hCE]
  simp only [convert_time_srt_to_ass, hrepl, hsplit, f2h.1, f2m.1,
    pyFloat_fields ss ms h3 h4]

/-- What `assValue` reads back from a markup timestamp
`H:MM:(x as %05.2f)` for the magnitudes arising here. -/
theorem assValue_fields (hh mm : ℕ) (x : ℚ) (h1 : hh < 100) (h2 : mm < 100)
    (hx0 : 0 ≤ x) (hx : x < 61) :
    assValue ⟨natDigits hh ++ ':' :: digits2 mm ++ ':' :: fmt052 x⟩ =
      some (3600 * (hh : ℚ) + 60 * (mm : ℚ) + ((roundHE (100 * x)).toNat : ℚ) / 100) := by
  have hcz : 0 ≤ roundHE (100 * x) := roundHE_nonneg (by positivity)
  have hub : roundHE (100 * x) ≤ 6100 := by
    have hle := roundHE_sub_le (100 * x)
    rw [abs_le] at hle
    have hq : ((roundHE (100 * x) : ℤ) : ℚ) < 6101 := by linarith [hle.2]
    have := Int.lt_iff_add_one_le.mp (by exact_mod_cast hq)
    omega
  have hc100 : (roundHE (100 * x)).toNat / 100 < 100 := by omega
  have hcm : (roundHE (100 * x)).toNat % 100 < 100 := Nat.mod_lt _ (by norm_num)
  have f2c := digits2_facts _ hc100
  have f2r := digits2_facts _ hcm
  have fnh := natDigits_facts hh h1
  have f2m := digits2_facts mm h2
  have hfmt : fmt052 x =
      digits2 ((roundHE (100 * x)).toNat / 100) ++
        '.' :: digits2 ((roundHE (100 * x)).toNat % 100) := rfl
  have hallf : (fmt052 x).all (fun ch => ch != ':') = true := by
    rw [hfmt, List.all_append, List.all_cons]
    simp [all_ne_of_noSep f2c.2.2 ':' (by decide), all_ne_of_noSep f2r.2.2 ':' (by decide)]
  have hsplit : splitChar ':' (natDigits hh ++ ':' :: digits2 mm ++ ':' :: fmt052 x) =
      [natDigits hh, digits2 mm, fmt052 x] := by
    simp only [List.append_assoc, List.cons_append]
    rw [splitChar_append ':' _ _ (all_ne_of_noSep fnh.2 ':' (by decide)),
      splitChar_append ':' _ _ (all_ne_of_noSep f2m.2.2 ':' (by decide)),
      splitChar_single hallf]
  have hpf : pyFloat? (fmt052 x) = some (((roundHE (100 * x)).toNat : ℚ) / 100) := by
    have hsp : splitChar '.' (fmt052 x) =
        [digits2 ((roundHE (100 * x)).toNat / 100),
          digits2 ((roundHE (100 * x)).toNat % 100)] := by
      rw [hfmt, splitChar_append '.' _ _ (all_ne_of_noSep f2c.2.2 '.' (by decide)),
        splitChar_single (all_ne_of_noSep f2r.2.2 '.' (by decide))]
    simp only [pyFloat?, hsp, f2c.1, f2r.1, f2r.2.1]
    congr 1
    have hdm : 100 * ((roundHE (100 * x)).toNat / 100) + (roundHE (100 * x)).toNat % 100 =
        (roundHE (100 * x)).toNat := Nat.div_add_mod _ 100
    have hq : (100 : ℚ) * (((roundHE (100 * x)).toNat / 100 : ℕ) : ℚ) +
        (((roundHE (100 * x)).toNat % 100 : ℕ) : ℚ) = (((roundHE (100 * x)).toNat : ℕ) : ℚ) := by
      exact_mod_cast congrArg (fun n : ℕ => (n : ℚ)) hdm
    norm_num
    linarith [hq]
  simp only [assValue, hsplit, fnh.1, f2m.1, hpf]

theorem srtFields_of_nonneg (s : ℚ) (h0 : 0 ≤ s) :
    srtFields s = ((⌊s / 3600⌋).toNat, (⌊pymod s 3600 / 60⌋).toNat,
      (⌊pymod s 60⌋).toNat, (roundHE ((s - ⌊s⌋) * 1000)).toNat) := by
  simp only [srtFields, if_neg (not_lt.mpr h0)]

/-- `s % 60` splits into its floor plus the fractional part of `s` itself
(they differ by the integer `60·⌊s/60⌋`). -/
theorem pymod60_split (s : ℚ) :
    pymod s 60 = ((⌊pymod s 60⌋ : ℤ) : ℚ) + (s - ⌊s⌋) := by
  have h2 : Int.fract (pymod s 60) = Int.fract s := by
    unfold pymod
    have he : s - 60 * ((⌊s / 60⌋ : ℤ) : ℚ) = s - ((60 * ⌊s / 60⌋ : ℤ) : ℚ) := by
      push_cast; ring
    rw [he, Int.fract_sub_int]
  have h1 : pymod s 60 - ((⌊pymod s 60⌋ : ℤ) : ℚ) = Int.fract (pymod s 60) := rfl
  have h3 : Int.fract s = s - ((⌊s⌋ : ℤ) : ℚ) := rfl
  rw [h3] at h2
  linarith [h1, h2]

/-- Two values at most `1/20` apart round (to centiseconds) to integers at
most one apart. -/
theorem roundHE_close (a b : ℚ) (h : |a - b| ≤ 1 / 20) :
    |((roundHE a : ℤ) : ℚ) - ((roundHE b : ℤ) : ℚ)| ≤ 1 := by
  have ha := roundHE_sub_le a
  have hb := roundHE_sub_le b
  rw [abs_le] at ha hb h
  have hq : |((roundHE a : ℤ) : ℚ) - ((roundHE b : ℤ) : ℚ)| < 2 := by
    rw [abs_lt]
    constructor <;> linarith
  have hz : |roundHE a - roundHE b| < 2 := by
    have : ((|roundHE a - roundHE b| : ℤ) : ℚ) < 2 := by
      rw [Int.cast_abs]
      push_cast
      push_cast at hq
      exact hq
    exact_mod_cast this
  have hz1 : |roundHE a - roundHE b| ≤ 1 := by omega
  have : ((|roundHE a - roundHE b| : ℤ) : ℚ) ≤ 1 := by exact_mod_cast hz1
  rw [Int.cast_abs] at this
  push_cast at this ⊢
  exact this

/-- C2 amended: for `s` in `[0, 86400)` whose millisecond rounding stays
below 1000, parsing the SRT timestamp produced by `format_time` and
reformatting it through `convert_time_srt_to_ass` yields a markup
timestamp whose numeric value differs from that of `toMarkupTime s` by at
most one centisecond (the markup format's 2-decimal precision). -/
theorem c2_roundtrip_amended (s : ℚ) (h0 : 0 ≤ s) (h1 : s < 86400)
    (hm : roundHE ((s - ⌊s⌋) * 1000) ≤ 999) :
    ∃ t v1 v2, convert_time_srt_to_ass (format_time s) = some t ∧
      assValue t = some v1 ∧ assValue (toMarkupTime s) = some v2 ∧
      |v1 - v2| ≤ 1 / 100 := by
  -- field bounds
  have hsdiv : s / 3600 < 24 := by
    rw [div_lt_iff (by norm_num)]
    linarith
  have hHz : ⌊s / 3600⌋ < 24 := Int.floor_lt.mpr (by exact_mod_cast hsdiv)
  have hH : (⌊s / 3600⌋).toNat < 100 := by omega
  have hpm3600 := pymod_lt s (b := 3600) (by norm_num)
  have hpm3600n := pymod_nonneg s (b := 3600) (by norm_num)
  have hMdiv : pymod s 3600 / 60 < 60 := by
    rw [div_lt_iff (by norm_num)]
    linarith
  have hMz : ⌊pymod s 3600 / 60⌋ < 60 := Int.floor_lt.mpr (by exact_mod_cast hMdiv)
  have hM : (⌊pymod s 3600 / 60⌋).toNat < 100 := by omega
  have hpm60 := pymod_lt s (b := 60) (by norm_num)
  have hpm60n := pymod_nonneg s (b := 60) (by norm_num)
  have hSz : ⌊pymod s 60⌋ < 60 := Int.floor_lt.mpr (by exact_mod_cast hpm60)
  have hSzn : 0 ≤ ⌊pymod s 60⌋ := Int.floor_nonneg.mpr hpm60n
  have hSI : (⌊pymod s 60⌋).toNat < 100 := by omega
  have hfr0 : 0 ≤ s - ⌊s⌋ := by
    have := Int.floor_le s
    linarith
  have hMSz : 0 ≤ roundHE ((s - ⌊s⌋) * 1000) := roundHE_nonneg (by positivity)
  have hMS : (roundHE ((s - ⌊s⌋) * 1000)).toNat < 1000 := by omega
  -- the SRT string and its conversion
  have hformat : format_time s =
      ⟨digits2 (⌊s / 3600⌋).toNat ++ ':' :: digits2 (⌊pymod s 3600 / 60⌋).toNat ++
        ':' :: digits2 (⌊pymod s 60⌋).toNat ++
        ',' :: digits3 (roundHE ((s - ⌊s⌋) * 1000)).toNat⟩ := by
    unfold format_time
    rw [srtFields_of_nonneg s h0]
  rw [hformat, convert_time_fields _ _ _ _ hH hM hSI hMS]
  have hx1ap : ((⌊pymod s 60⌋).toNat : ℚ) ≤ 59 := by
    have : ((⌊pymod s 60⌋).toNat : ℕ) ≤ 59 := by omega
    exact_mod_cast this
  have hx1a : (0 : ℚ) ≤ ((⌊pymod s 60⌋).toNat : ℚ) +
      (((roundHE ((s - ⌊s⌋) * 1000)).toNat : ℕ) : ℚ) / 1000 := by positivity
  have hx1b : ((⌊pymod s 60⌋).toNat : ℚ) +
      (((roundHE ((s - ⌊s⌋) * 1000)).toNat : ℕ) : ℚ) / 1000 < 61 := by
    have hms : (((roundHE ((s - ⌊s⌋) * 1000)).toNat : ℕ) : ℚ) ≤ 999 := by
      exact_mod_cast (by omega : (roundHE ((s - ⌊s⌋) * 1000)).toNat ≤ 999)
    nlinarith
  have hv1 := assValue_fields (⌊s / 3600⌋).toNat (⌊pymod s 3600 / 60⌋).toNat
    (((⌊pymod s 60⌋).toNat : ℚ) + ((roundHE ((s - ⌊s⌋) * 1000)).toNat : ℚ) / 1000)
    hH hM hx1a hx1b
  have hv2 : assValue (toMarkupTime s) = some (3600 * ((⌊s / 3600⌋).toNat : ℚ) +
      60 * ((⌊pymod s 3600 / 60⌋).toNat : ℚ) +
      ((roundHE (100 * pymod s 60)).toNat : ℚ) / 100) :=
    assValue_fields _ _ _ hH hM hpm60n (by linarith)
  refine ⟨_, _, _, rfl, hv1, hv2, ?_⟩
  · -- the two centisecond counts differ by at most one
    have hkey : |(((⌊pymod s 60⌋).toNat : ℚ) +
        (((roundHE ((s - ⌊s⌋) * 1000)).toNat : ℕ) : ℚ) / 1000) - pymod s 60| ≤ 1 / 2000 := by
      have hcast : (((roundHE ((s - ⌊s⌋) * 1000)).toNat : ℕ) : ℚ) =
          ((roundHE ((s - ⌊s⌋) * 1000) : ℤ) : ℚ) := by
        exact_mod_cast congrArg (fun z : ℤ => (z : ℚ)) (Int.toNat_of_nonneg hMSz)
      have hsicast : ((⌊pymod s 60⌋).toNat : ℚ) = ((⌊pymod s 60⌋ : ℤ) : ℚ) := by
        exact_mod_cast congrArg (fun z : ℤ => (z : ℚ)) (Int.toNat_of_nonneg hSzn)
      have hround := roundHE_sub_le ((s - ⌊s⌋) * 1000)
      rw [abs_le] at hround
      have hps := pymod60_split s
      rw [hcast, hsicast, abs_le]
      constructor <;> linarith [hround.1, hround.2]
    have hclose := roundHE_close
      (100 * (((⌊pymod s 60⌋).toNat : ℚ) +
        (((roundHE ((s - ⌊s⌋) * 1000)).toNat : ℕ) : ℚ) / 1000))
      (100 * pymod s 60)
      (by
        rw [show (100 : ℚ) * (((⌊pymod s 60⌋).toNat : ℚ) +
            (((roundHE ((s - ⌊s⌋) * 1000)).toNat : ℕ) : ℚ) / 1000) - 100 * pymod s 60 =
            100 * ((((⌊pymod s 60⌋).toNat : ℚ) +
            (((roundHE ((s - ⌊s⌋) * 1000)).toNat : ℕ) : ℚ) / 1000) - pymod s 60) from by ring,
          abs_mul, show |(100 : ℚ)| = 100 from by norm_num]
        linarith [hkey])
    have hr1n : 0 ≤ roundHE (100 * (((⌊pymod s 60⌋).toNat : ℚ) +
        (((roundHE ((s - ⌊s⌋) * 1000)).toNat : ℕ) : ℚ) / 1000)) :=
      roundHE_nonneg (by positivity)
    have hr2n : 0 ≤ roundHE (100 * pymod s 60) := roundHE_nonneg (by positivity)
    have hc1 : (((roundHE (100 * (((⌊pymod s 60⌋).toNat : ℚ) +
        (((roundHE ((s - ⌊s⌋) * 1000)).toNat : ℕ) : ℚ) / 1000))).toNat : ℕ) : ℚ) =
        ((roundHE (100 * (((⌊pymod s 60⌋).toNat : ℚ) +
        (((roundHE ((s - ⌊s⌋) * 1000)).toNat : ℕ) : ℚ) / 1000)) : ℤ) : ℚ) := by
      exact_mod_cast congrArg (fun z : ℤ => (z : ℚ)) (Int.toNat_of_nonneg hr1n)
    have hc2 : (((roundHE (100 * pymod s 60)).toNat : ℕ) : ℚ) =
        ((roundHE (100 * pymod s 60) : ℤ) : ℚ) := by
      exact_mod_cast congrArg (fun z : ℤ => (z : ℚ)) (Int.toNat_of_nonneg hr2n)
    have hins : ∀ X c d : ℚ, |c - d| ≤ 1 → |(X + c / 100) - (X + d / 100)| ≤ 1 / 100 := by
      intro X c d h
      rw [show (X + c / 100) - (X + d / 100) = (c - d) / 100 from by ring, abs_div,
        show |(100 : ℚ)| = 100 from by norm_num]
      linarith
    rw [hc1, hc2]
    exact hins _ _ _ hclose

/-- C2 counterexample: at `s = 0.9996` the 1000 ms field is re-parsed as
`0.1` s, so the round-tripped timestamp is off by 0.9 s; and even away from
that carry (at `s = 0.0051`, whose milliseconds round to 5) the two
timestamps differ by a full centisecond, more than any millisecond-rounding
tolerance. -/
theorem c2_roundtrip_counterexample :
    convert_time_srt_to_ass (format_time (9996/10000 : ℚ)) = some "0:00:00.10" ∧
    toMarkupTime (9996/10000 : ℚ) = "0:00:01.00" ∧
    assValue "0:00:00.10" = some (1/10) ∧
    assValue "0:00:01.00" = some 1 ∧
    ¬ (|(1 : ℚ)/10 - 1| ≤ 1/100) ∧
    convert_time_srt_to_ass (format_time (51/10000 : ℚ)) = some "0:00:00.00" ∧
    toMarkupTime (51/10000 : ℚ) = "0:00:00.01" ∧
    assValue "0:00:00.00" = some 0 ∧
    assValue "0:00:00.01" = some (1/100) ∧
    roundHE (((51/10000 : ℚ) - ⌊(51/10000 : ℚ)⌋) * 1000) ≤ 999 ∧
    ¬ (|(0 : ℚ) - 1/100| ≤ 1/1000) := by
  refine ⟨by decide, by decide, by decide, by decide, by decide, by decide,
    by decide, by decide, by decide, by decide, by decide⟩

/-- Witness for C2: the amended round-trip bound at `s = 1/2`. -/
theorem c2_roundtrip_amended_w :
    ((0 : ℚ) ≤ 1/2) ∧ ((1/2 : ℚ) < 86400) ∧
    (roundHE (((1/2 : ℚ) - ⌊(1/2 : ℚ)⌋) * 1000) ≤ 999) ∧
    (∃ t v1 v2, convert_time_srt_to_ass (format_time (1/2 : ℚ)) = some t ∧
      assValue t = some v1 ∧ assValue (toMarkupTime (1/2 : ℚ)) = some v2 ∧
      |v1 - v2| ≤ 1 / 100) :=
  ⟨by decide, by decide, by decide,
    c2_roundtrip_amended (1/2) (by decide) (by decide) (by decide)⟩

end Scrideo
